import Mathlib

/-!
Shallow embedding of the core relational engine of the Sequel repository
(src/src/structures: column.rs, filter.rs, sort.rs, db_err.rs and
src/src/structures/relation: table.rs, crud.rs, filter.rs, search.rs,
sort.rs, join.rs, utils.rs, io.rs).

Modelling conventions:
* Rust `f64` is modelled by `ℚ` (the claims are settled on small exact
  numerals where `f64` arithmetic and comparison agree with `ℚ`);
  `DateTime<Utc>` timestamps are modelled by `ℤ`.
* `HashMap<String, FieldValue>` rows are modelled by association lists
  (`Row`); `BTreeMap<FieldValue, Vec<usize>>` indexes by association lists
  kept sorted by the key order (`Index`).
* The on-disk index directory is modelled by an association list
  `IndexStore` keyed by the index file name, exactly as `io.rs` keys files.
* A Rust panic (unwrap of `None`, out-of-bounds indexing) is modelled by
  `Option`'s `none` (or by the `RunRes.crash` outcome for the fueled join
  loops); `Except DBError` models `Result<_, DBError>`.
-/

set_option synthInstance.maxSize 4000

/-- Decidable equality for `Except`, so that concrete runs of the model can
be checked by `decide`. -/
instance {ε α : Type} [DecidableEq ε] [DecidableEq α] : DecidableEq (Except ε α) := by
  intro x y
  cases x <;> cases y
  case ok.ok a b =>
    exact if h : a = b then .isTrue (by rw [h]) else .isFalse (by intro hh; cases hh; exact h rfl)
  case error.error a b =>
    exact if h : a = b then .isTrue (by rw [h]) else .isFalse (by intro hh; cases hh; exact h rfl)
  case ok.error a b => exact .isFalse (by intro hh; cases hh)
  case error.ok a b => exact .isFalse (by intro hh; cases hh)

/-- `DataType` from column.rs. -/
inductive DataType
  | string
  | number
  | date
  | url
  | boolean
deriving DecidableEq, Repr

/-- `FieldValue` from column.rs: one cell value. `number` carries the
`f64` payload (modelled by `ℚ`), `date` the UTC timestamp (modelled by `ℤ`). -/
inductive FieldValue
  | string (s : String)
  | number (n : ℚ)
  | date (d : ℤ)
  | url (u : String)
  | boolean (b : Bool)
  | null
deriving DecidableEq, Repr

/-- `FilterConditionValue` from filter.rs. -/
inductive FilterConditionValue
  | string (s : String)
  | number (n : ℚ)
  | date (d : ℤ)
  | numberRange (lo hi : ℚ)
  | dateRange (lo hi : ℤ)
deriving DecidableEq, Repr

/-- `FilterCondition` from filter.rs. -/
inductive FilterCondition
  | LessThan (v : FilterConditionValue)
  | LessThanOrEqualTo (v : FilterConditionValue)
  | GreaterThan (v : FilterConditionValue)
  | GreaterThanOrEqualTo (v : FilterConditionValue)
  | Equal (v : FilterConditionValue)
  | NotEqual (v : FilterConditionValue)
  | True
  | False
  | Null
  | NotNull
  | NumberBetween (v : FilterConditionValue)
  | DateBetween (v : FilterConditionValue)
deriving DecidableEq, Repr

/-- `SortCondition` from sort.rs. -/
inductive SortCondition
  | NumericAscending
  | NumericDescending
  | AlphaAscending
  | AlphaDescending
  | DateAscending
  | DateDescending
deriving DecidableEq, Repr

/-- `DBError` from db_err.rs. -/
inductive DBError
  | PrimaryKeyRequired
  | MissingPrimaryKeys (pks : List String)
  | MisMatchDataType (expected actual : DataType)
  | InvalidColumn (name : String)
  | MissingModifyCriteria (c : FilterCondition)
  | DuplicatePrimaryKey (col : String)
  | MandatoryColumn (col : String)
  | DataBaseFileFailure (path : String)
  | ActionNotImplemented (desc : String)
  | MisMatchConditionDataType (expected actual : FilterConditionValue)
  | IOFailure (file msg : String)
deriving DecidableEq, Repr

/-- `Column` from column.rs. -/
structure Column where
  name : String
  data_type : DataType
  is_primary_key : Bool
deriving DecidableEq, Repr

/-- A row: `HashMap<String, FieldValue>` modelled as an association list. -/
abbrev Row := List (String × FieldValue)

/-- `Table` from relation/table.rs. -/
structure Table where
  name : String
  columns : List Column
  primary_keys : List Column
  rows : List Row
deriving DecidableEq, Repr

/-- `HashMap::get` on a row. -/
def rowGet (r : Row) (k : String) : Option FieldValue :=
  match r with
  | [] => none
  | (k', v) :: rest => if k' = k then some v else rowGet rest k

/-- `HashMap::insert` on a row: replaces the value at an existing key,
otherwise adds the entry. -/
def rowInsert (r : Row) (k : String) (v : FieldValue) : Row :=
  match r with
  | [] => [(k, v)]
  | (k', v') :: rest => if k' = k then (k, v) :: rest else (k', v') :: rowInsert rest k v

/-- `HashMap::remove_entry` on a row. -/
def rowRemove (r : Row) (k : String) : Row :=
  match r with
  | [] => []
  | (k', v') :: rest => if k' = k then rest else (k', v') :: rowRemove rest k

/-- `HashMap::into_keys` on a row. -/
def rowKeys (r : Row) : List String := r.map (·.1)

/-- `HashMap` equality (`PartialEq` for `HashMap<String, FieldValue>`):
same size and every entry of the left map present in the right one. -/
def rowEquiv (r1 r2 : Row) : Bool :=
  r1.length == r2.length && r1.all (fun kv => rowGet r2 kv.1 == some kv.2)

example : rowGet [("a", .number 1), ("b", .null)] "b" = some .null := by decide

example : rowEquiv [("a", .number 1), ("b", .null)] [("b", .null), ("a", .number 1)] = true := by
  decide

/-- `FieldValue::data_type` from column.rs (note: `Null` reports `Number`). -/
def FieldValue.data_type (v : FieldValue) : DataType :=
  match v with
  | .string _ => .string
  | .number _ => .number
  | .date _ => .date
  | .url _ => .url
  | .boolean _ => .boolean
  | .null => .number

/-- `FieldValue::compare_to` from column.rs: ordering within one kind,
`MisMatchDataType` across kinds (`Null` compares equal only to `Null`). -/
def FieldValue.compare_to (a b : FieldValue) : Except DBError Ordering :=
  match a, b with
  | .boolean x, .boolean y =>
      .ok (if (!x && !y) || (x && y) then .eq else if x && !y then .gt else .lt)
  | .date x, .date y => .ok (if x < y then .lt else if x = y then .eq else .gt)
  | .number x, .number y => .ok (if x < y then .lt else if x = y then .eq else .gt)
  | .string x, .string y => .ok (if x < y then .lt else if x = y then .eq else .gt)
  | .url x, .url y => .ok (if x < y then .lt else if x = y then .eq else .gt)
  | .null, .null => .ok .eq
  | _, _ => .error (.MisMatchDataType a.data_type b.data_type)

/-- `Ord::cmp` for `FieldValue` (column.rs): `compare_to(..).unwrap()`.
The source panics on a cross-kind comparison; the `.lt` default below is
unreachable in every theorem of this file, which only exercises the order
on same-kind values. -/
def fvCmp (a b : FieldValue) : Ordering :=
  match a.compare_to b with
  | .ok o => o
  | .error _ => .lt

/-- `FieldValue::is_less_than` from column.rs (numbers and dates only). -/
def FieldValue.is_less_than (a b : FieldValue) : Except DBError Bool :=
  match a, b with
  | .number x, .number y => .ok (decide (x < y))
  | .date x, .date y => .ok (decide (x < y))
  | _, _ =>
      if a.data_type = .number then .error (.MisMatchDataType .number b.data_type)
      else .error (.MisMatchDataType .number a.data_type)

/-- `FieldValue::is_greater_than` from column.rs (numbers and dates only). -/
def FieldValue.is_greater_than (a b : FieldValue) : Except DBError Bool :=
  match a, b with
  | .number x, .number y => .ok (decide (x > y))
  | .date x, .date y => .ok (decide (x > y))
  | _, _ =>
      if a.data_type = .number then .error (.MisMatchDataType .number b.data_type)
      else .error (.MisMatchDataType .number a.data_type)

/-- `FilterConditionValue::number` from filter.rs. -/
def FilterConditionValue.number? (cv : FilterConditionValue) : Option ℚ :=
  match cv with
  | .number v => some v
  | _ => none

/-- `FilterConditionValue::number_range` from filter.rs. -/
def FilterConditionValue.number_range? (cv : FilterConditionValue) : Option (ℚ × ℚ) :=
  match cv with
  | .numberRange lo hi => some (lo, hi)
  | _ => none

/-! ## Secondary indexes

`BTreeMap<FieldValue, Vec<usize>>` is modelled as an association list kept
sorted by `fvCmp`, and the persisted index directory (`io.rs`) as an
association list keyed by the index file name. -/

/-- One secondary index: the ordered map `FieldValue -> Vec<usize>`. -/
abbrev Index := List (FieldValue × List Nat)

/-- The index directory: file name to index contents. -/
abbrev IndexStore := List (String × Index)

/-- `index_file_name` from io.rs. -/
def index_file_name (table_name column_name : String) : String :=
  "idx_" ++ table_name ++ "_" ++ column_name ++ ".bin"

/-- `load_index` from io.rs. -/
def load_index (st : IndexStore) (table_name column_name : String) : Option Index :=
  match st with
  | [] => none
  | (f, idx) :: rest =>
      if f = index_file_name table_name column_name then some idx
      else load_index rest table_name column_name

/-- `save_index` from io.rs: (over)writes the index file. -/
def save_index (st : IndexStore) (table_name column_name : String) (idx : Index) : IndexStore :=
  match st with
  | [] => [(index_file_name table_name column_name, idx)]
  | (f, old) :: rest =>
      if f = index_file_name table_name column_name then (f, idx) :: rest
      else (f, old) :: save_index rest table_name column_name idx

/-- `Table::index_available` from relation/filter.rs: the index file opens. -/
def index_available (st : IndexStore) (table_name column_name : String) : Bool :=
  (load_index st table_name column_name).isSome

/-- `BTreeMap::get` (sorted association list search by `fvCmp`). -/
def idx_get (idx : Index) (k : FieldValue) : Option (List Nat) :=
  match idx with
  | [] => none
  | (k', ps) :: rest =>
      match fvCmp k k' with
      | .lt => none
      | .eq => some ps
      | .gt => idx_get rest k

/-- `BTreeMap::contains_key`. -/
def idx_contains (idx : Index) (k : FieldValue) : Bool := (idx_get idx k).isSome

/-- `BTreeMap::insert`: replaces the value stored at the key. -/
def idx_insert (idx : Index) (k : FieldValue) (v : List Nat) : Index :=
  match idx with
  | [] => [(k, v)]
  | (k', ps) :: rest =>
      match fvCmp k k' with
      | .lt => (k, v) :: (k', ps) :: rest
      | .eq => (k, v) :: rest
      | .gt => (k', ps) :: idx_insert rest k v

/-- `BTreeMap::remove`. -/
def idx_remove (idx : Index) (k : FieldValue) : Index :=
  match idx with
  | [] => []
  | (k', ps) :: rest =>
      match fvCmp k k' with
      | .lt => (k', ps) :: rest
      | .eq => rest
      | .gt => (k', ps) :: idx_remove rest k

/-- `index.entry(k).and_modify(|v| v.push(i)).or_insert_with(|| vec![i])`
from `Table::index_column` (crud.rs). -/
def idx_add_pos (idx : Index) (k : FieldValue) (i : Nat) : Index :=
  match idx with
  | [] => [(k, [i])]
  | (k', ps) :: rest =>
      match fvCmp k k' with
      | .lt => (k, [i]) :: (k', ps) :: rest
      | .eq => (k', ps ++ [i]) :: rest
      | .gt => (k', ps) :: idx_add_pos rest k i

/-- Range bound for the `BTreeMap::range` calls in `search_with_index`. -/
inductive RBound
  | unb
  | incl (v : FieldValue)
  | excl (v : FieldValue)
deriving DecidableEq, Repr

/-- Is the key at or above the lower bound? -/
def lowOk (b : RBound) (k : FieldValue) : Bool :=
  match b with
  | .unb => true
  | .incl v => fvCmp v k != .gt
  | .excl v => fvCmp v k == .lt

/-- Is the key at or below the upper bound? -/
def highOk (b : RBound) (k : FieldValue) : Bool :=
  match b with
  | .unb => true
  | .incl v => fvCmp k v != .gt
  | .excl v => fvCmp k v == .lt

/-- `find_row_indices` from `Table::search_with_index` (relation/filter.rs):
concatenate the position vectors of all keys in the range, in key order. -/
def find_row_indices (idx : Index) (lo hi : RBound) : List Nat :=
  ((idx.filter (fun e => lowOk lo e.1 && highOk hi e.1)).map (·.2)).flatten

example : idx_add_pos (idx_add_pos [] (.number 2) 0) (.number 1) 1 =
    [(.number 1, [1]), (.number 2, [0])] := by decide

example : find_row_indices [(.number 1, [1]), (.number 2, [0]), (.number 5, [4])]
    (.incl (.number 2)) .unb = [0, 4] := by decide

/-! ## Table helpers (relation/utils.rs) -/

/-- `Table::column` from utils.rs: first column with the given name. -/
def Table.column (t : Table) (col_name : String) : Option Column :=
  t.columns.find? (fun c => c.name == col_name)

/-- `Table::primary_key` from utils.rs. Note that the source iterates over
`self.columns`, not over `self.primary_keys`. -/
def Table.primary_key (t : Table) (pk_name : String) : Option Column :=
  t.columns.find? (fun c => c.name == pk_name)

/-- `Table::is_valid_column` from utils.rs. -/
def Table.is_valid_column (t : Table) (col_name : String) : Bool :=
  (t.column col_name).isSome

/-- `Table::is_valid_primary_key` from utils.rs (via `primary_key`, which
searches the whole column list). -/
def Table.is_valid_primary_key (t : Table) (pk : String) : Bool :=
  (t.primary_key pk).isSome

/-- `Table::missing_primary_keys` from utils.rs. -/
def Table.missing_primary_keys (t : Table) (cols : List String) : List String :=
  (t.primary_keys.filter (fun pk => !cols.contains pk.name)).map (·.name)

/-- `Table::index_on` from utils.rs: load the index or fail with `IOFailure`. -/
def Table.index_on (st : IndexStore) (t : Table) (column_name : String) :
    Except DBError Index :=
  match load_index st t.name column_name with
  | some i => .ok i
  | none => .error (.IOFailure (index_file_name t.name column_name)
      "failed to load index from file.")

/-! ## Construction and indexing (relation/crud.rs) -/

/-- The full-scan grouping loop of `Table::index_column` (crud.rs). -/
def build_index (rows : List Row) (column_name : String) : Index :=
  rows.enum.foldl
    (fun idx p =>
      match rowGet p.2 column_name with
      | some v => idx_add_pos idx v p.1
      | none => idx)
    []

/-- `Table::index_column` from crud.rs: build the index by a full scan and
persist it; `InvalidColumn` if the column does not exist. -/
def Table.index_column (st : IndexStore) (t : Table) (column_name : String) :
    IndexStore × Except DBError Unit :=
  match t.column column_name with
  | none => (st, .error (.InvalidColumn column_name))
  | some _ => (save_index st t.name column_name (build_index t.rows column_name), .ok ())

/-- `Table::new` from crud.rs. Faithful to the source, including its quirk:
when no column is a primary key (and primary keys are enabled), the
synthetic "Tuple ID" column is pushed onto a shadowed clone of `columns`
that dies at the end of the `if` block, so it reaches `primary_keys` but
never the schema; `index_column("Tuple ID")` then fails and is discarded
(`let _ = ...`), so no index is persisted for it either. -/
def Table.new (st : IndexStore) (name : String) (columns : List Column)
    (disable_primary_keys : Bool) : Table × IndexStore :=
  let primary_keys :=
    if disable_primary_keys then [] else columns.filter (·.is_primary_key)
  let primary_keys :=
    if !disable_primary_keys && primary_keys.length == 0 then
      primary_keys ++ [⟨"Tuple ID", DataType.number, true⟩]
    else primary_keys
  let inst : Table := ⟨name, columns, primary_keys, []⟩
  let st' := primary_keys.foldl (fun s pk => (Table.index_column s inst pk.name).1) st
  (inst, st')

/-! ## Insertion (relation/crud.rs) -/

/-- The duplicate-primary-key loop of `Table::insert_row`:
`row_data.get(pk_name).unwrap()` and `load_index(..).unwrap()` panics are
modelled by `none`. -/
def pk_dup_check (st : IndexStore) (tname : String) (pks : List Column) (r : Row) :
    Option (Except DBError Unit) :=
  match pks with
  | [] => some (.ok ())
  | pk :: rest =>
      match rowGet r pk.name with
      | none => none
      | some v =>
          match load_index st tname pk.name with
          | none => none
          | some idx =>
              if idx_contains idx v then some (.error (.DuplicatePrimaryKey pk.name))
              else pk_dup_check st tname rest r

/-- The per-column validation loop of `Table::insert_row`: unknown columns
fail with `InvalidColumn`, non-`Null` values of the wrong kind with
`MisMatchDataType`. -/
def columns_check (t : Table) (entries : List (String × FieldValue)) :
    Except DBError Unit :=
  match entries with
  | [] => .ok ()
  | (col_name, fv) :: rest =>
      match t.column col_name with
      | none => .error (.InvalidColumn col_name)
      | some col =>
          if !(fv == .null) && !(col.data_type == fv.data_type) then
            .error (.MisMatchDataType col.data_type fv.data_type)
          else columns_check t rest

/-- The index-maintenance loop at the end of `Table::insert_row`: for each
primary key run `update_index_insertion` (crud.rs), which loads the index
(`index_on`), `BTreeMap::insert`s `[row_index]` at the new value (replacing
any previous vector) and saves. Errors propagate via `?`. -/
def update_indexes_insertion (st : IndexStore) (tname : String) (pks : List Column)
    (r : Row) (row_index : Nat) : Option (IndexStore × Except DBError Unit) :=
  match pks with
  | [] => some (st, .ok ())
  | pk :: rest =>
      match rowGet r pk.name with
      | none => none
      | some v =>
          match load_index st tname pk.name with
          | none => some (st, .error (.IOFailure (index_file_name tname pk.name)
              "failed to load index from file."))
          | some idx =>
              update_indexes_insertion
                (save_index st tname pk.name (idx_insert idx v [row_index]))
                tname rest r row_index

/-- `Table::insert_row` from crud.rs. `none` models a panic. The row is
appended before the index-maintenance loop runs, exactly as in the source,
so an index failure leaves the row in place. -/
def Table.insert_row (st : IndexStore) (t : Table) (row_data : Row) :
    Option (IndexStore × Table × Except DBError Unit) :=
  if (t.missing_primary_keys (rowKeys row_data)).length > 0 then
    some (st, t, .error (.MissingPrimaryKeys (t.missing_primary_keys (rowKeys row_data))))
  else
    match pk_dup_check st t.name t.primary_keys row_data with
    | none => none
    | some (.error e) => some (st, t, .error e)
    | some (.ok _) =>
        match columns_check t row_data with
        | .error e => some (st, t, .error e)
        | .ok _ =>
            match update_indexes_insertion st t.name t.primary_keys row_data
                ((t.rows ++ [row_data]).length - 1) with
            | none => none
            | some (st', .error e) =>
                some (st', { t with rows := t.rows ++ [row_data] }, .error e)
            | some (st', .ok _) =>
                some (st', { t with rows := t.rows ++ [row_data] }, .ok ())

example :
    Table.new [] "T" [⟨"A", .number, true⟩] false =
      (⟨"T", [⟨"A", .number, true⟩], [⟨"A", .number, true⟩], []⟩,
        [("idx_T_A.bin", [])]) := by decide

example :
    Table.insert_row [("idx_T_A.bin", [])]
      ⟨"T", [⟨"A", .number, true⟩], [⟨"A", .number, true⟩], []⟩
      [("A", .number 1)] =
    some ([("idx_T_A.bin", [(.number 1, [0])])],
      ⟨"T", [⟨"A", .number, true⟩], [⟨"A", .number, true⟩], [[("A", .number 1)]]⟩,
      .ok ()) := by decide

example :
    Table.new [] "T" [⟨"A", .number, false⟩] false =
      (⟨"T", [⟨"A", .number, false⟩], [⟨"Tuple ID", .number, true⟩], []⟩, []) := by decide

/-! ## Full-scan predicate evaluation (relation/search.rs) -/

/-- `.number().unwrap()` on a condition value; the `0` default models the
panic, which is unreachable at every call site below (the callers only
apply it to a value already known to be a `Number`). -/
def FilterConditionValue.numberD (cv : FilterConditionValue) : ℚ :=
  (cv.number?).getD 0

/-- `check_against_condition` from search.rs: only a `Number` condition
value is accepted, and the operator is applied to the condition value and
its own payload — the row value is never consulted (the bug under claim C1). -/
def check_against_condition (condition_value : FilterConditionValue)
    (op : FilterConditionValue → ℚ → Bool) : Except DBError Bool :=
  match condition_value with
  | .number condition_target => .ok (op condition_value condition_target)
  | _ => .error (.MisMatchConditionDataType (.number 0) condition_value)

/-- `non_index_row_matches_search_critieria` from search.rs (source spelling
kept). -/
def non_index_row_matches_search_critieria (row_value : FieldValue)
    (search_criteria : FilterCondition) : Except DBError Bool :=
  match search_criteria with
  | .LessThan cv => check_against_condition cv (fun v1 v2 => decide (v1.numberD < v2))
  | .LessThanOrEqualTo cv => check_against_condition cv (fun v1 v2 => decide (v1.numberD ≤ v2))
  | .GreaterThan cv => check_against_condition cv (fun v1 v2 => decide (v1.numberD > v2))
  | .GreaterThanOrEqualTo cv => check_against_condition cv (fun v1 v2 => decide (v1.numberD ≥ v2))
  | .Equal cv => check_against_condition cv (fun v1 v2 => v1.numberD == v2)
  | .NotEqual cv => check_against_condition cv (fun v1 v2 => v1.numberD != v2)
  | .NumberBetween cv =>
      match cv with
      | .numberRange lower_bound upper_bound =>
          match (FieldValue.number lower_bound).is_less_than row_value with
          | .error e => .error e
          | .ok false => .ok false
          | .ok true =>
              match (FieldValue.number upper_bound).is_greater_than row_value with
              | .error e => .error e
              | .ok b => .ok b
      | _ => .error (.MisMatchConditionDataType (.dateRange 0 0) cv)
  | .DateBetween cv =>
      match cv with
      | .dateRange lower_bound upper_bound =>
          match (FieldValue.date lower_bound).is_less_than row_value with
          | .error e => .error e
          | .ok false => .ok false
          | .ok true =>
              match (FieldValue.date upper_bound).is_greater_than row_value with
              | .error e => .error e
              | .ok b => .ok b
      | _ => .error (.MisMatchConditionDataType (.numberRange 0 0) cv)
  | .True => .ok (row_value == .boolean true)
  | .False => .ok (row_value == .boolean false)
  | .Null => .ok (row_value == .null)
  | .NotNull => .ok (!(row_value == .null))

/-! ## Selection (relation/filter.rs) -/

/-- `search_index_for_bool_or_null` from `search_with_index`. -/
def search_index_for_bool_or_null (idx : Index) (fv : FieldValue) : List Nat :=
  match idx_get idx fv with
  | some indices => indices
  | none => []

/-- The `>` nudge used by `search_with_index`: `number + 0.00000001`. -/
def gtEpsilon : ℚ := 1 / 100000000

/-- The row-index computation of `Table::search_with_index`
(relation/filter.rs): which positions the index lookup yields for each
condition. `none` models a panic (only the `DateBetween`/`NumberRange`
combination, whose `date_range().unwrap()` unwraps `None`). -/
def eligible_row_indices (index : Index) (criteria : FilterCondition) :
    Option (Except DBError (List Nat)) :=
  match criteria with
  | .LessThan cv =>
      some (match cv.number? with
        | none => .error (.MisMatchConditionDataType (.number (-1)) cv)
        | some n => .ok (find_row_indices index .unb (.excl (.number n))))
  | .LessThanOrEqualTo cv =>
      some (match cv.number? with
        | none => .error (.MisMatchConditionDataType (.number (-1)) cv)
        | some n => .ok (find_row_indices index .unb (.incl (.number n))))
  | .GreaterThan cv =>
      some (match cv.number? with
        | none => .error (.MisMatchConditionDataType (.number (-1)) cv)
        | some n => .ok (find_row_indices index (.incl (.number (n + gtEpsilon))) .unb))
  | .GreaterThanOrEqualTo cv =>
      some (match cv.number? with
        | none => .error (.MisMatchConditionDataType (.number (-1)) cv)
        | some n => .ok (find_row_indices index (.incl (.number n)) .unb))
  | .Equal cv =>
      some (match cv.number? with
        | none => .error (.MisMatchConditionDataType (.number (-1)) cv)
        | some n =>
            match idx_get index (.number n) with
            | some indices => .ok indices
            | none => .ok [])
  | .NumberBetween cv =>
      some (match cv.number_range? with
        | none => .error (.MisMatchConditionDataType (.number (-1)) cv)
        | some (lower_bound, upper_bound) =>
            .ok (find_row_indices index (.incl (.number lower_bound))
              (.incl (.number upper_bound))))
  | .DateBetween cv =>
      -- the source first checks `number_range()` and then unwraps
      -- `date_range()`: a `NumberRange` passes the check and panics on the
      -- unwrap, anything else fails the check.
      (match cv with
        | .numberRange _ _ => none
        | _ => some (.error (.MisMatchConditionDataType (.number (-1)) cv)))
  | .NotEqual _ => some (.error (.ActionNotImplemented "Indexing on inequality"))
  | .NotNull => some (.error (.ActionNotImplemented "Indexing on non-null values"))
  | .True => some (.ok (search_index_for_bool_or_null index (.boolean true)))
  | .False => some (.ok (search_index_for_bool_or_null index (.boolean false)))
  | .Null => some (.ok (search_index_for_bool_or_null index .null))

/-- Translate eligible row indices into rows: `table_rows[row_idx]`, an
out-of-bounds position (a stale index) being a panic. -/
def rows_at (rows : List Row) (is : List Nat) : Option (List Row) :=
  match is with
  | [] => some []
  | i :: rest =>
      match rows.get? i with
      | none => none
      | some r => (rows_at rows rest).map (r :: ·)

/-- `Table::search_with_index` from relation/filter.rs. -/
def Table.search_with_index (t : Table) (index : Index) (criteria : FilterCondition) :
    Option (Except DBError (List Row)) :=
  match eligible_row_indices index criteria with
  | none => none
  | some (.error e) => some (.error e)
  | some (.ok is) =>
      match rows_at t.rows is with
      | none => none
      | some rs => some (.ok rs)

/-- `Table::search_without_index` from relation/filter.rs: scan every row;
`row.get(column_name).unwrap()` panics when a row lacks the column. -/
def search_without_index_go (column_name : String) (criteria : FilterCondition)
    (rows : List Row) : Option (Except DBError (List Row)) :=
  match rows with
  | [] => some (.ok [])
  | r :: rest =>
      match rowGet r column_name with
      | none => none
      | some row_value =>
          match non_index_row_matches_search_critieria row_value criteria with
          | .error e => some (.error e)
          | .ok true =>
              match search_without_index_go column_name criteria rest with
              | none => none
              | some (.error e) => some (.error e)
              | some (.ok rs) => some (.ok (r :: rs))
          | .ok false => search_without_index_go column_name criteria rest
  
/-- `Table::search_without_index` wrapper. -/
def Table.search_without_index (t : Table) (column_name : String)
    (criteria : FilterCondition) : Option (Except DBError (List Row)) :=
  search_without_index_go column_name criteria t.rows

/-- The result-building loop of `Table::select_rows`: insert every matching
row into the fresh result table, propagating errors (and panics). -/
def insert_all (st : IndexStore) (t : Table) (rs : List Row) :
    Option (IndexStore × Table × Except DBError Unit) :=
  match rs with
  | [] => some (st, t, .ok ())
  | r :: rest =>
      match Table.insert_row st t r with
      | none => none
      | some (st', t', .error e) => some (st', t', .error e)
      | some (st', t', .ok _) => insert_all st' t' rest

/-- The tail of `Table::select_rows`: given the outcome of the chosen
search strategy, propagate panics and errors, or build the fresh result
table (a `Table::new` with `disable_primary_keys = true` plus one
`insert_row` per matching row). -/
def select_rows_build (st : IndexStore) (t : Table) (column_name : String)
    (matching : Option (Except DBError (List Row))) :
    Option (IndexStore × Table × Except DBError Table) :=
  match matching with
  | none => none
  | some (.error e) => some (st, t, .error e)
  | some (.ok matching_rows) =>
      match Table.new st ("temp table " ++ t.name ++ " with filtered rows on column "
          ++ column_name) t.columns true with
      | (filtered_table, st1) =>
          match insert_all st1 filtered_table matching_rows with
          | none => none
          | some (st2, _, .error e) => some (st2, t, .error e)
          | some (st2, ft, .ok _) => some (st2, t, .ok ft)

/-- `Table::select_rows` from relation/filter.rs. The receiver is `&mut
self` in the source but is never written; the returned `Table` in the pair
is the receiver's state after the call, threaded explicitly. -/
def Table.select_rows (st : IndexStore) (t : Table) (column_name : String)
    (search_criteria : FilterCondition) :
    Option (IndexStore × Table × Except DBError Table) :=
  if !(t.is_valid_column column_name) then
    some (st, t, .error (.InvalidColumn column_name))
  else
    select_rows_build st t column_name
      (if index_available st t.name column_name then
        match load_index st t.name column_name with
        | none => none
        | some index => t.search_with_index index search_criteria
      else t.search_without_index column_name search_criteria)

/-! ## Deletion (relation/crud.rs) -/

/-- `Vec::contains` over rows (`HashMap` equality). -/
def rows_contain (rs : List Row) (r : Row) : Bool := rs.any (fun x => rowEquiv x r)

/-- The inner loop of `Table::delete_rows`: remove each deleted row's value
for the indexed column from the index; `row.get(column_name).unwrap()`
panics when the row lacks the column. -/
def remove_values_from_index (idx : Index) (column_name : String) (rs : List Row) :
    Option Index :=
  match rs with
  | [] => some idx
  | r :: rest =>
      match rowGet r column_name with
      | none => none
      | some v => remove_values_from_index (idx_remove idx v) column_name rest

/-- The index-maintenance loop of `Table::delete_rows`: for every primary
key, load the index (`.unwrap()`), remove the deleted rows' values, save. -/
def delete_from_indexes (st : IndexStore) (tname : String) (pks : List Column)
    (rows_to_delete : List Row) : Option IndexStore :=
  match pks with
  | [] => some st
  | pk :: rest =>
      match load_index st tname pk.name with
      | none => none
      | some idx =>
          match remove_values_from_index idx pk.name rows_to_delete with
          | none => none
          | some idx' =>
              delete_from_indexes (save_index st tname pk.name idx') tname rest rows_to_delete

/-- `Table::delete_rows` from crud.rs. The function starts with a leftover
debug dump that does `load_index(INDEX_PATH, &self.name, "A").unwrap()`:
when the table has no persisted index on a column literally named "A" the
call panics. Surviving rows keep their old positions inside the remaining
indexes (nothing is renumbered). -/
def Table.delete_rows (st : IndexStore) (t : Table) (column_name : String)
    (search_criteria : FilterCondition) :
    Option (IndexStore × Table × Except DBError Nat) :=
  match load_index st t.name "A" with
  | none => none
  | some _ =>
  match Table.select_rows st t column_name search_criteria with
  | none => none
  | some (st1, t1, .error e) => some (st1, t1, .error e)
  | some (st1, _, .ok filtered_table) =>
      let rows_to_delete := filtered_table.rows
      let kept_rows := t.rows.filter (fun r => !(rows_contain rows_to_delete r))
      match delete_from_indexes st1 t.name t.primary_keys rows_to_delete with
      | none => none
      | some st2 => some (st2, { t with rows := kept_rows }, .ok rows_to_delete.length)

/-- `Table::delete_column` from crud.rs: the guard calls
`is_valid_primary_key`, which (via `Table::primary_key`) merely checks the
column list, so any existing column — primary key or not — passes. -/
def Table.delete_column (t : Table) (column_name : String) :
    Table × Except DBError Unit :=
  if !(t.is_valid_primary_key column_name) then
    (t, .error (.InvalidColumn column_name))
  else
    ({ t with
        rows := t.rows.map (fun r => rowRemove r column_name),
        columns := t.columns.filter (fun c => !(c.name == column_name)) },
      .ok ())

/-! ## Sorting (relation/sort.rs) -/

/-- The `compare` closure of `Table::sort_rows`: fetch the column value on
both sides (`.unwrap()`: a missing column panics in the source; the `.null`
default is unreachable under the row-wellformedness hypothesis carried by
the theorems below), compare with `FieldValue::compare_to` — swapped for a
descending sort — and turn a comparison error into `Equal`. -/
def row_compare (col : String) (a b : Row) (descending_ord : Bool) : Ordering :=
  match (if descending_ord
      then ((rowGet b col).getD .null).compare_to ((rowGet a col).getD .null)
      else ((rowGet a col).getD .null).compare_to ((rowGet b col).getD .null)) with
  | .ok ordering => ordering
  | .error _ => .eq

/-- The "is not greater" relation induced by `row_compare`; `sort_by` orders
by exactly this relation. -/
def row_le (col : String) (descending_ord : Bool) (a b : Row) : Bool :=
  row_compare col a b descending_ord != .gt

/-- Stable insertion of one element: the element goes in front of the first
entry it is not greater than. -/
def insert_sorted {α : Type} (le : α → α → Bool) (x : α) : List α → List α
  | [] => [x]
  | y :: ys => if le x y then x :: y :: ys else y :: insert_sorted le x ys

/-- `Vec::sort_by`: a stable comparator sort. Modelled as a stable
insertion sort, which coincides with the source's stable merge sort on
every comparator that implements a total preorder (the order of mutually
incomparable elements under an inconsistent comparator is unspecified in
the source). -/
def sort_by {α : Type} (le : α → α → Bool) : List α → List α
  | [] => []
  | x :: xs => insert_sorted le x (sort_by le xs)

/-- `Table::sort_rows` from relation/sort.rs. -/
def Table.sort_rows (t : Table) (sorting_by : SortCondition) (sorting_column : String) :
    Table × Except DBError Unit :=
  if !(t.is_valid_column sorting_column) then
    (t, .error (.InvalidColumn sorting_column))
  else
    match sorting_by with
    | .NumericAscending =>
        ({ t with rows := sort_by (row_le sorting_column false) t.rows }, .ok ())
    | .NumericDescending =>
        ({ t with rows := sort_by (row_le sorting_column true) t.rows }, .ok ())
    | .AlphaAscending =>
        ({ t with rows := sort_by (row_le sorting_column false) t.rows }, .ok ())
    | .AlphaDescending =>
        ({ t with rows := sort_by (row_le sorting_column true) t.rows }, .ok ())
    | .DateAscending =>
        ({ t with rows := sort_by (row_le sorting_column false) t.rows }, .ok ())
    | .DateDescending =>
        ({ t with rows := sort_by (row_le sorting_column true) t.rows }, .ok ())

/-! ## Joins (relation/join.rs) -/

/-- `JoinPair` from join.rs. -/
structure JoinPair where
  value_to_sort_on : FieldValue
  row_index : Nat
deriving DecidableEq, Repr

/-- `cmp_pairs` from join.rs (`Ord::cmp` on the sort values). -/
def cmp_pairs (p1 p2 : JoinPair) : Ordering :=
  fvCmp p1.value_to_sort_on p2.value_to_sort_on

/-- The comparator relation `sort_by(|a, b| cmp_pairs(a, b))` sorts by. -/
def pair_le (p1 p2 : JoinPair) : Bool := cmp_pairs p1 p2 != .gt

/-- Extract the `(join column value, row position)` pairs of one side;
`r.get(&column_to_join).unwrap()` panics when a row lacks the column. -/
def join_elements (rows : List Row) (column_to_join : String) : Option (List JoinPair) :=
  match rows.enum with
  | l => go l
where
  go : List (Nat × Row) → Option (List JoinPair)
  | [] => some []
  | (idx, r) :: rest =>
      match rowGet r column_to_join with
      | none => none
      | some v => (go rest).map (⟨v, idx⟩ :: ·)

/-- `join_rows` from `Table::inner_join`: clone the left row and overlay
every right-side field except the join column. -/
def join_rows_inner (r1 r2 : Row) (join_column : String) : Row :=
  r2.foldl (fun acc kv => if kv.1 = join_column then acc else rowInsert acc kv.1 kv.2) r1

/-- `join_rows` from `Table::outer_join`: build a fresh map from the left
row's fields, then overlay every right-side field except the join column. -/
def join_rows_outer (r1 r2 : Row) (join_column : String) : Row :=
  let base := r1.foldl (fun acc kv => rowInsert acc kv.1 kv.2) []
  r2.foldl (fun acc kv => if kv.1 = join_column then acc else rowInsert acc kv.1 kv.2) base

/-- Outcome of a fueled loop: `crash` models a panic, `timeout` exhausted
fuel (never the source's behaviour — theorems only ever conclude from
`crash`/`done` values reached with ample fuel). -/
inductive RunRes (α : Type)
  | crash
  | timeout
  | done (a : α)
deriving DecidableEq, Repr

/-- The `'until_eq` loop of `Table::inner_join`: advance the smaller side
until the two current values compare equal. The source indexes both vectors
without a bounds check, so running a pointer past the end is a panic
(`crash`). -/
def until_eq_inner (re se : List JoinPair) :
    Nat → Nat → Nat → RunRes (Nat × Nat)
  | 0, _, _ => .timeout
  | fuel + 1, r_pointer, s_pointer =>
      match re.get? r_pointer, se.get? s_pointer with
      | some a, some b =>
          match cmp_pairs a b with
          | .eq => .done (r_pointer, s_pointer)
          | .lt => until_eq_inner re se fuel (r_pointer + 1) s_pointer
          | .gt => until_eq_inner re se fuel r_pointer (s_pointer + 1)
      | _, _ => .crash

/-- The `'outer` merge loop of `Table::inner_join`. -/
def inner_merge (tL tR : Table) (column_to_join : String) (re se : List JoinPair) :
    Nat → IndexStore → Table → Option Nat → Nat → Nat →
    RunRes (IndexStore × Except DBError Table)
  | 0, _, _, _, _, _ => .timeout
  | fuel + 1, st, join_table, marked_row, r_pointer, s_pointer =>
      if r_pointer = re.length ∨ s_pointer = se.length then .done (st, .ok join_table)
      else
        let stepped : RunRes (Option Nat × Nat × Nat) :=
          match marked_row with
          | some m => .done (some m, r_pointer, s_pointer)
          | none =>
              match until_eq_inner re se (fuel + 1) r_pointer s_pointer with
              | .crash => .crash
              | .timeout => .timeout
              | .done (rp, sp) => .done (some sp, rp, sp)
        match stepped with
        | .crash => .crash
        | .timeout => .timeout
        | .done (marked, rp, sp) =>
            match re.get? rp, se.get? sp with
            | some a, some b =>
                if cmp_pairs a b = .eq then
                  match tL.rows.get? a.row_index, tR.rows.get? b.row_index with
                  | some r1, some r2 =>
                      match Table.insert_row st join_table
                          (join_rows_inner r1 r2 column_to_join) with
                      | none => .crash
                      | some (st', _, .error e) => .done (st', .error e)
                      | some (st', jt', .ok _) =>
                          inner_merge tL tR column_to_join re se fuel st' jt'
                            marked rp (sp + 1)
                  | _, _ => .crash
                else
                  match marked with
                  | none => .crash
                  | some m =>
                      inner_merge tL tR column_to_join re se fuel st join_table
                        none (rp + 1) m
            | _, _ => .crash

/-- The result schema of `Table::inner_join`: left columns without the join
column, then all right columns with the join column's primary-key flag
cleared. -/
def inner_join_columns (tL tR : Table) (column_to_join : String) : List Column :=
  tL.columns.filter (fun c => !(c.name == column_to_join)) ++
    tR.columns.map (fun c =>
      if c.name = column_to_join then { c with is_primary_key := false } else c)

/-- `Table::inner_join` from join.rs (fueled). Note the result table is
created with `disable_primary_keys = false`, so inherited primary-key flags
stay live. -/
def Table.inner_join (st : IndexStore) (tL tR : Table) (column_to_join : String)
    (fuel : Nat) : RunRes (IndexStore × Except DBError Table) :=
  match Table.new st ("Join Result of Tables " ++ tL.name ++ " and " ++ tR.name
      ++ " on column " ++ column_to_join)
      (inner_join_columns tL tR column_to_join) false with
  | (join_table, st1) =>
      if tL.rows.length = 0 ∨ tR.rows.length = 0 then .done (st1, .ok join_table)
      else
        match join_elements tL.rows column_to_join,
            join_elements tR.rows column_to_join with
        | some reRaw, some seRaw =>
            inner_merge tL tR column_to_join (sort_by pair_le reRaw)
              (sort_by pair_le seRaw) fuel st1 join_table none 0 0
        | _, _ => .crash

/-- The `'until_eq` loop of `Table::outer_join`: like the inner one, but a
left element passed over while not in the result is recorded as skipped. -/
def until_eq_outer (re se : List JoinPair) :
    Nat → Nat → Nat → Bool → List Nat → RunRes (Nat × Nat × Bool × List Nat)
  | 0, _, _, _, _ => .timeout
  | fuel + 1, r_pointer, s_pointer, r_ptr_in_result, skipped_rows =>
      match re.get? r_pointer, se.get? s_pointer with
      | some a, some b =>
          match cmp_pairs a b with
          | .eq => .done (r_pointer, s_pointer, r_ptr_in_result, skipped_rows)
          | .lt =>
              until_eq_outer re se fuel (r_pointer + 1) s_pointer false
                (if r_ptr_in_result then skipped_rows else skipped_rows ++ [a.row_index])
          | .gt => until_eq_outer re se fuel r_pointer (s_pointer + 1)
              r_ptr_in_result skipped_rows
      | _, _ => .crash

/-- The trailing `while` loop of `Table::outer_join`: collect the remaining
left positions that never made it into the result. -/
def outer_tail_skips (re : List JoinPair) :
    Nat → Nat → Bool → List Nat → Option (List Nat)
  | 0, _, _, _ => none
  | fuel + 1, r_pointer, r_ptr_in_result, skipped_rows =>
      if r_pointer = re.length then some skipped_rows
      else if r_ptr_in_result then outer_tail_skips re fuel (r_pointer + 1) false skipped_rows
      else
        match re.get? r_pointer with
        | none => none
        | some a => outer_tail_skips re fuel (r_pointer + 1) r_ptr_in_result
            (skipped_rows ++ [a.row_index])

/-- The final loop of `Table::outer_join`: emit one row per skipped left
position, with `Null` in every right column except the join column. -/
def emit_skipped (tL tR : Table) (column_to_join : String) :
    IndexStore → Table → List Nat → Option (IndexStore × Except DBError Table)
  | st, join_table, [] => some (st, .ok join_table)
  | st, join_table, row_index :: rest =>
      match tL.rows.get? row_index with
      | none => none
      | some r =>
          let filled := tR.columns.foldl
            (fun acc c => if c.name = column_to_join then acc else rowInsert acc c.name .null)
            r
          match Table.insert_row st join_table filled with
          | none => none
          | some (st', _, .error e) => some (st', .error e)
          | some (st', jt', .ok _) => emit_skipped tL tR column_to_join st' jt' rest

/-- The `'outer` merge loop of `Table::outer_join`, including the
skipped-row bookkeeping and the post-loop emission. When the loop ends with
the left side exhausted the source returns immediately, dropping every
collected skipped row. -/
def outer_merge (tL tR : Table) (column_to_join : String) (re se : List JoinPair) :
    Nat → IndexStore → Table → Option Nat → Nat → Nat → Bool → List Nat →
    RunRes (IndexStore × Except DBError Table)
  | 0, _, _, _, _, _, _, _ => .timeout
  | fuel + 1, st, join_table, marked_row, r_pointer, s_pointer, r_ptr_in_result,
      skipped_rows =>
      if r_pointer = re.length ∨ s_pointer = se.length then
        if r_pointer = re.length then .done (st, .ok join_table)
        else
          match outer_tail_skips re (fuel + 1) r_pointer r_ptr_in_result skipped_rows with
          | none => .timeout
          | some skipped =>
              match emit_skipped tL tR column_to_join st join_table skipped with
              | none => .crash
              | some (st', res) => .done (st', res)
      else
        let stepped : RunRes (Option Nat × Nat × Nat × Bool × List Nat) :=
          match marked_row with
          | some m => .done (some m, r_pointer, s_pointer, r_ptr_in_result, skipped_rows)
          | none =>
              match until_eq_outer re se (fuel + 1) r_pointer s_pointer
                  r_ptr_in_result skipped_rows with
              | .crash => .crash
              | .timeout => .timeout
              | .done (rp, sp, inRes, sk) => .done (some sp, rp, sp, inRes, sk)
        match stepped with
        | .crash => .crash
        | .timeout => .timeout
        | .done (marked, rp, sp, _inRes, sk) =>
            match re.get? rp, se.get? sp with
            | some a, some b =>
                if cmp_pairs a b = .eq then
                  match tL.rows.get? a.row_index, tR.rows.get? b.row_index with
                  | some r1, some r2 =>
                      match Table.insert_row st join_table
                          (join_rows_outer r1 r2 column_to_join) with
                      | none => .crash
                      | some (st', _, .error e) => .done (st', .error e)
                      | some (st', jt', .ok _) =>
                          outer_merge tL tR column_to_join re se fuel st' jt'
                            marked rp (sp + 1) true sk
                  | _, _ => .crash
                else
                  match marked with
                  | none => .crash
                  | some m =>
                      outer_merge tL tR column_to_join re se fuel st join_table
                        none (rp + 1) m false sk
            | _, _ => .crash

/-- The result schema of `Table::outer_join`: left columns without the join
column, then all right columns, all primary-key flags cleared. -/
def outer_join_columns (tL tR : Table) (column_to_join : String) : List Column :=
  (tL.columns.filter (fun c => !(c.name == column_to_join))).map
      (fun c => { c with is_primary_key := false }) ++
    tR.columns.map (fun c => { c with is_primary_key := false })

/-- `Table::outer_join` from join.rs (fueled; left-outer semantics). The
result table is created with `disable_primary_keys = true`. -/
def Table.outer_join (st : IndexStore) (tL tR : Table) (column_to_join : String)
    (fuel : Nat) : RunRes (IndexStore × Except DBError Table) :=
  match Table.new st ("Join Result of Tables " ++ tL.name ++ " and " ++ tR.name
      ++ " on column " ++ column_to_join)
      (outer_join_columns tL tR column_to_join) true with
  | (join_table, st1) =>
      if tL.rows.length = 0 ∨ tR.rows.length = 0 then .done (st1, .ok join_table)
      else
        match join_elements tL.rows column_to_join,
            join_elements tR.rows column_to_join with
        | some reRaw, some seRaw =>
            outer_merge tL tR column_to_join (sort_by pair_le reRaw)
              (sort_by pair_le seRaw) fuel st1 join_table none 0 0 false []
        | _, _ => .crash

/-! ## Concrete scenarios

Tables reached through the public API (`Table::new` followed by
`insert_row` calls), used to settle the claims on concrete inputs. -/

/-- Build the table `T` with a single primary-key `Number` column `A` and
insert the rows `A = 1` and `A = 2`. -/
def tblT_build : Option (IndexStore × Table) :=
  match Table.new [] "T" [⟨"A", .number, true⟩] false with
  | (t0, st0) =>
      match Table.insert_row st0 t0 [("A", .number 1)] with
      | some (st1, t1, .ok _) =>
          match Table.insert_row st1 t1 [("A", .number 2)] with
          | some (st2, t2, .ok _) => some (st2, t2)
          | _ => none
      | _ => none

/-- The resulting index directory: one index on `("T", "A")`. -/
def stT : IndexStore := [("idx_T_A.bin", [(.number 1, [0]), (.number 2, [1])])]

/-- The resulting table. -/
def tblT : Table :=
  ⟨"T", [⟨"A", .number, true⟩], [⟨"A", .number, true⟩],
    [[("A", .number 1)], [("A", .number 2)]]⟩

example : tblT_build = some (stT, tblT) := by decide

/-- Extract the row list of a successful `select_rows` result. -/
def sel_rows_result (o : Option (IndexStore × Table × Except DBError Table)) :
    Option (List Row) :=
  match o with
  | some (_, _, .ok ft) => some ft.rows
  | _ => none

/-- Build the table `TB` with primary-key column `A` and plain `Number`
column `B`, rows `(A,B) = (1,10), (2,20)`. -/
def tblTB_build : Option (IndexStore × Table) :=
  match Table.new [] "TB" [⟨"A", .number, true⟩, ⟨"B", .number, false⟩] false with
  | (t0, st0) =>
      match Table.insert_row st0 t0 [("A", .number 1), ("B", .number 10)] with
      | some (st1, t1, .ok _) =>
          match Table.insert_row st1 t1 [("A", .number 2), ("B", .number 20)] with
          | some (st2, t2, .ok _) => some (st2, t2)
          | _ => none
      | _ => none

/-- The table `TB`. -/
def tblTB : Table :=
  ⟨"TB", [⟨"A", .number, true⟩, ⟨"B", .number, false⟩], [⟨"A", .number, true⟩],
    [[("A", .number 1), ("B", .number 10)], [("A", .number 2), ("B", .number 20)]]⟩

/-- The index directory after building `TB`: only the primary key `A` is
indexed, so a `select_rows` on `B` full-scans. -/
def stTB : IndexStore := [("idx_TB_A.bin", [(.number 1, [0]), (.number 2, [1])])]

/-- The index directory after additionally calling `index_column("B")`:
now a `select_rows` on `B` goes through the persisted index. -/
def stTB_idxB : IndexStore :=
  [("idx_TB_A.bin", [(.number 1, [0]), (.number 2, [1])]),
   ("idx_TB_B.bin", [(.number 10, [0]), (.number 20, [1])])]

example : tblTB_build = some (stTB, tblTB) := by decide

example : Table.index_column stTB tblTB "B" = (stTB_idxB, .ok ()) := by decide

/-- **C1.** Index/scan equivalence fails: on table `TB` with the condition
`Equal(Number 10)` on column `B` — a condition kind the claim covers — the
index path (after `index_column("B")`) returns exactly the row with
`B = 10`, while the full scan (no index on `B`) returns both rows: the
scan's relational operators compare the condition value against itself and
never consult the row value (search.rs lines 24-35), so the two multisets
of rows differ. -/
theorem c1_index_scan_equivalence_fails :
    tblTB_build = some (stTB, tblTB) ∧
    Table.index_column stTB tblTB "B" = (stTB_idxB, .ok ()) ∧
    sel_rows_result (Table.select_rows stTB_idxB tblTB "B"
      (.Equal (.number 10))) = some [[("A", .number 1), ("B", .number 10)]] ∧
    sel_rows_result (Table.select_rows stTB tblTB "B"
      (.Equal (.number 10))) =
      some [[("A", .number 1), ("B", .number 10)],
            [("A", .number 2), ("B", .number 20)]] ∧
    ¬ ([[("A", FieldValue.number 1), ("B", FieldValue.number 10)]] : List Row).Perm
        [[("A", .number 1), ("B", .number 10)], [("A", .number 2), ("B", .number 20)]] := by
  refine ⟨by decide, by decide, by decide, by decide, by decide⟩

/-- Does the index map each value to exactly the positions, in `rows`, of
the rows holding that value in column `col`? (The invariant claimed by C2,
stated from the spec's words.) -/
def index_consistent (idx : Index) (rows : List Row) (col : String) : Bool :=
  idx.all (fun e => e.2.all (fun p =>
    match rows.get? p with
    | some r => rowGet r col == some e.1
    | none => false)) &&
  (List.range rows.length).all (fun i =>
    match rows.get? i with
    | some r =>
        match rowGet r col with
        | some v => ((idx_get idx v).getD []).contains i
        | none => true
    | none => true)

/-- The state after `delete_rows("A", Equal(1))` on `T`. -/
def stT_after_delete : IndexStore := [("idx_T_A.bin", [(.number 2, [1])])]

/-- The table after the deletion: only the row `A = 2` survives, now at
position `0`. -/
def tblT_after_delete : Table :=
  ⟨"T", [⟨"A", .number, true⟩], [⟨"A", .number, true⟩], [[("A", .number 2)]]⟩

/-- **C2.** The index-consistency invariant is broken by deletion: deleting
the row `A = 1` from `T` leaves the index on `A` mapping `2` to position
`1`, but the surviving row `A = 2` now sits at position `0` (crud.rs never
renumbers surviving positions). The stale index then makes the subsequent
indexed lookup `select_rows("A", Equal(2))` panic on the out-of-bounds
position. -/
theorem c2_delete_breaks_index_consistency :
    Table.delete_rows stT tblT "A" (.Equal (.number 1)) =
      some (stT_after_delete, tblT_after_delete, .ok 1) ∧
    load_index stT_after_delete "T" "A" = some [(.number 2, [1])] ∧
    index_consistent [(.number 2, [1])] tblT_after_delete.rows "A" = false ∧
    Table.select_rows stT_after_delete tblT_after_delete "A"
      (.Equal (.number 2)) = none := by
  refine ⟨by decide, by decide, by decide, by decide⟩

/-- Build the `Users`/`Depts` pair of §8 of the spec: `Users{id, deptId}`
with rows `(1,10), (2,20)` (`id` primary key) and `Depts{deptId, name}`
with rows `(10,"Eng"), (30,"Sales")` (`deptId` primary key), sharing one
index directory. -/
def users_depts_build : Option (IndexStore × Table × Table) :=
  match Table.new [] "Users" [⟨"id", .number, true⟩, ⟨"deptId", .number, false⟩] false with
  | (u0, st0) =>
      match Table.insert_row st0 u0 [("id", .number 1), ("deptId", .number 10)] with
      | some (st1, u1, .ok _) =>
          match Table.insert_row st1 u1 [("id", .number 2), ("deptId", .number 20)] with
          | some (st2, u2, .ok _) =>
              match Table.new st2 "Depts"
                  [⟨"deptId", .number, true⟩, ⟨"name", .string, false⟩] false with
              | (d0, st3) =>
                  match Table.insert_row st3 d0
                      [("deptId", .number 10), ("name", .string "Eng")] with
                  | some (st4, d1, .ok _) =>
                      match Table.insert_row st4 d1
                          [("deptId", .number 30), ("name", .string "Sales")] with
                      | some (st5, d2, .ok _) => some (st5, u2, d2)
                      | _ => none
                  | _ => none
          | _ => none
      | _ => none

/-- The `Users` table of the example. -/
def tblUsers : Table :=
  ⟨"Users", [⟨"id", .number, true⟩, ⟨"deptId", .number, false⟩],
    [⟨"id", .number, true⟩],
    [[("id", .number 1), ("deptId", .number 10)],
     [("id", .number 2), ("deptId", .number 20)]]⟩

/-- The `Depts` table of the example. -/
def tblDepts : Table :=
  ⟨"Depts", [⟨"deptId", .number, true⟩, ⟨"name", .string, false⟩],
    [⟨"deptId", .number, true⟩],
    [[("deptId", .number 10), ("name", .string "Eng")],
     [("deptId", .number 30), ("name", .string "Sales")]]⟩

/-- The shared index directory after building both tables. -/
def stUsersDepts : IndexStore :=
  [("idx_Users_id.bin", [(.number 1, [0]), (.number 2, [1])]),
   ("idx_Depts_deptId.bin", [(.number 10, [0]), (.number 30, [1])])]

example : users_depts_build = some (stUsersDepts, tblUsers, tblDepts) := by decide

/-- **C3.** The spec's inner-join example panics instead of producing the
one-row table: after matching `deptId = 10`, the merge advances the left
pointer past the end inside the unbounded `'until_eq` loop
(join.rs lines 265-270 index `r_join_elements[r_pointer]` with
`r_pointer = 2` on a two-element vector). -/
theorem c3_inner_join_example_crashes :
    users_depts_build = some (stUsersDepts, tblUsers, tblDepts) ∧
    Table.inner_join stUsersDepts tblUsers tblDepts "deptId" 100 = .crash := by
  refine ⟨by decide, by decide⟩

/-- **C4.** The spec's outer-join example panics the same way: the
`'until_eq` loop of `outer_join` (join.rs lines 133-143) also indexes past
the end of `r_join_elements`, so the null-filled row for `(2, 20)` is never
produced. -/
theorem c4_outer_join_example_crashes :
    users_depts_build = some (stUsersDepts, tblUsers, tblDepts) ∧
    Table.outer_join stUsersDepts tblUsers tblDepts "deptId" 100 = .crash := by
  refine ⟨by decide, by decide⟩

/-- The table built by `Table::new("T", [A: Number, not primary], primary
keys enabled)`: the synthetic "Tuple ID" column lands in `primary_keys`
but not in `columns` (crud.rs lines 29-34 push it onto a shadowed local),
and no index is persisted for it (`index_column("Tuple ID")` fails with
`InvalidColumn` and is discarded). -/
def tblNoPk : Table :=
  ⟨"T", [⟨"A", .number, false⟩], [⟨"Tuple ID", .number, true⟩], []⟩

/-- **C5.** The synthetic primary key does not work as claimed: the schema
of the constructed table does not contain the "Tuple ID" column, and
`insert_row` of a row supplying only the declared column `A` fails with
`MissingPrimaryKeys ["Tuple ID"]` instead of succeeding with an
auto-assigned identity (no auto-increment assignment exists in crud.rs). -/
theorem c5_synthetic_primary_key_broken :
    Table.new [] "T" [⟨"A", .number, false⟩] false = (tblNoPk, []) ∧
    tblNoPk.columns.all (fun c => !(c.name == "Tuple ID")) = true ∧
    Table.insert_row [] tblNoPk [("A", .number 1)] =
      some ([], tblNoPk, .error (.MissingPrimaryKeys ["Tuple ID"])) := by
  refine ⟨by decide, by decide, by decide⟩

/-- Build the table `T2` with primary-key column `id` and plain column
`name`, and one row. -/
def tblT2_build : Option (IndexStore × Table) :=
  match Table.new [] "T2" [⟨"id", .number, true⟩, ⟨"name", .string, false⟩] false with
  | (t0, st0) =>
      match Table.insert_row st0 t0 [("id", .number 1), ("name", .string "x")] with
      | some (st1, t1, .ok _) => some (st1, t1)
      | _ => none

/-- The built table `T2`. -/
def tblT2 : Table :=
  ⟨"T2", [⟨"id", .number, true⟩, ⟨"name", .string, false⟩],
    [⟨"id", .number, true⟩], [[("id", .number 1), ("name", .string "x")]]⟩

/-- **C8.** `delete_column` on the primary-key column `id` succeeds and
drops the column (guard `is_valid_primary_key` merely checks that a column
of that name exists, utils.rs lines 46-58), instead of failing with
`MandatoryColumn`; `primary_keys` still lists the dropped column. An
unknown column still fails with `InvalidColumn`, and a non-primary-key
column is also deleted successfully. -/
theorem c8_delete_column_drops_primary_key :
    tblT2_build = some ([("idx_T2_id.bin", [(.number 1, [0])])], tblT2) ∧
    (tblT2.primary_keys.any (fun c => c.name == "id")) = true ∧
    Table.delete_column tblT2 "id" =
      (⟨"T2", [⟨"name", .string, false⟩], [⟨"id", .number, true⟩],
        [[("name", .string "x")]]⟩, .ok ()) ∧
    Table.delete_column tblT2 "bogus" = (tblT2, .error (.InvalidColumn "bogus")) ∧
    Table.delete_column tblT2 "name" =
      (⟨"T2", [⟨"id", .number, true⟩], [⟨"id", .number, true⟩],
        [[("id", .number 1)]]⟩, .ok ()) := by
  refine ⟨by decide, by decide, by decide, by decide, by decide⟩

/-! ## C7: NotEqual/NotNull against an index -/

/-- **C7 counterexample.** With a persisted index on `A`, `select_rows`
with `NotEqual(1)` does not fall back to a scan: it returns the
`ActionNotImplemented` error. And even without any index, the full scan
for `NotEqual(1)` returns no rows at all (the row `A = 2` satisfies the
condition), because the scan compares the condition value against itself. -/
theorem c7_counterexample :
    Table.select_rows stT tblT "A" (.NotEqual (.number 1)) =
      some (stT, tblT, .error (.ActionNotImplemented "Indexing on inequality")) ∧
    sel_rows_result (Table.select_rows [] tblT "A" (.NotEqual (.number 1))) =
      some [] := by
  refine ⟨by decide, by decide⟩

/-- **C7 (amended).** Whenever the selected column has a persisted index,
`select_rows` with a `NotEqual` or `NotNull` condition propagates
`ActionNotImplemented` from `search_with_index` to the caller — no
full-scan fallback happens; the receiver and the index directory are left
unchanged. -/
theorem c7_not_conditions_error_with_index
    (st : IndexStore) (t : Table) (col : String) (cond : FilterCondition) (msg : String)
    (hvalid : t.is_valid_column col = true)
    (hidx : index_available st t.name col = true)
    (hcond : (cond = .NotNull ∧ msg = "Indexing on non-null values") ∨
      ((∃ w, cond = .NotEqual w) ∧ msg = "Indexing on inequality")) :
    Table.select_rows st t col cond =
      some (st, t, .error (.ActionNotImplemented msg)) := by
  unfold index_available at hidx
  obtain ⟨idx, hload⟩ := Option.isSome_iff_exists.mp hidx
  have hav : index_available st t.name col = true := by
    unfold index_available; rw [hload]; rfl
  rcases hcond with ⟨hc, hm⟩ | ⟨⟨w, hc⟩, hm⟩ <;> subst hc <;> subst hm <;>
    simp [Table.select_rows, hvalid, hav, hload, Table.search_with_index,
      eligible_row_indices, select_rows_build]

/-- **C7 witness**: the amended theorem applied to the concrete table `T`
with its index on `A` and the `NotNull` condition. -/
theorem c7_witness :
    Table.select_rows stT tblT "A" FilterCondition.NotNull =
      some (stT, tblT, .error (.ActionNotImplemented "Indexing on non-null values")) :=
  c7_not_conditions_error_with_index stT tblT "A" FilterCondition.NotNull
    "Indexing on non-null values" (by decide) (by decide) (Or.inl ⟨rfl, rfl⟩)

/-! ## C10: select_rows leaves the receiver (and the index directory) alone -/

/-- `Table::new` with primary keys disabled builds a bare table and writes
nothing to the index directory. -/
theorem table_new_disabled (st : IndexStore) (n : String) (cols : List Column) :
    Table.new st n cols true = (⟨n, cols, [], []⟩, st) := rfl

/-- `insert_row` into a table with no primary keys never touches the index
directory and never panics, and the result keeps an empty primary-key
list. -/
theorem insert_row_no_pks (st : IndexStore) (t : Table) (r : Row)
    (h : t.primary_keys = []) :
    ∃ t' res, Table.insert_row st t r = some (st, t', res) ∧ t'.primary_keys = [] := by
  unfold Table.insert_row
  simp only [Table.missing_primary_keys, h, List.filter_nil, List.map_nil,
    List.length_nil, gt_iff_lt, lt_irrefl, if_false, pk_dup_check]
  cases hc : columns_check t r with
  | error e => exact ⟨t, .error e, by simp, h⟩
  | ok u =>
      refine ⟨{ t with rows := t.rows ++ [r] }, .ok (), ?_, h⟩
      simp [h, update_indexes_insertion]

/-- `insert_all` into a table with no primary keys leaves the index
directory unchanged. -/
theorem insert_all_no_pks (rs : List Row) (st : IndexStore) (t : Table)
    (h : t.primary_keys = []) (st' : IndexStore) (t' : Table)
    (res : Except DBError Unit)
    (hrun : insert_all st t rs = some (st', t', res)) : st' = st := by
  induction rs generalizing st t with
  | nil =>
      simp only [insert_all, Option.some_inj] at hrun
      cases hrun
      rfl
  | cons r rest ih =>
      obtain ⟨t1, res1, hins, hpk1⟩ := insert_row_no_pks st t r h
      simp only [insert_all, hins] at hrun
      cases res1 with
      | error e =>
          simp only [Option.some_inj] at hrun
          cases hrun
          rfl
      | ok u => exact ih st t1 hpk1 hrun

/-- The tail of `select_rows` never touches the receiver or the store:
the freshly built result table has no primary keys, so its inserts write
no indexes. -/
theorem select_rows_build_frame (st : IndexStore) (t : Table) (col : String)
    (matching : Option (Except DBError (List Row)))
    (out : IndexStore × Table × Except DBError Table)
    (h : select_rows_build st t col matching = some out) :
    out.1 = st ∧ out.2.1 = t := by
  match matching with
  | none => exact absurd h (by simp [select_rows_build])
  | some (.error e) =>
      simp only [select_rows_build, Option.some_inj] at h
      cases h; exact ⟨rfl, rfl⟩
  | some (.ok rows) =>
      simp only [select_rows_build, table_new_disabled] at h
      split at h
      · exact absurd h (by simp)
      · rename_i st2 t2 e hrun
        simp only [Option.some_inj] at h
        cases h
        exact ⟨insert_all_no_pks rows st ⟨_, t.columns, [], []⟩ rfl st2 t2 (.error e) hrun,
          rfl⟩
      · rename_i st2 ft u hrun
        simp only [Option.some_inj] at h
        cases h
        exact ⟨insert_all_no_pks rows st ⟨_, t.columns, [], []⟩ rfl st2 ft (.ok u) hrun,
          rfl⟩

/-- **C10.** `select_rows` is free of effects on its receiver: whenever the
call returns (with `Ok` or with `Err`), the receiver table and the index
directory are both exactly what they were before the call; only the
freshly-built result table is new. -/
theorem c10_select_rows_frame (st : IndexStore) (t : Table) (col : String)
    (cond : FilterCondition) (out : IndexStore × Table × Except DBError Table)
    (h : Table.select_rows st t col cond = some out) :
    out.1 = st ∧ out.2.1 = t := by
  unfold Table.select_rows at h
  split at h
  · cases h; exact ⟨rfl, rfl⟩
  · exact select_rows_build_frame st t col _ out h

/-- The result table of `select_rows("A", Equal(1))` on `T`. -/
def ftT_equal1 : Table :=
  ⟨"temp table T with filtered rows on column A",
    [⟨"A", .number, true⟩], [], [[("A", .number 1)]]⟩

/-- **C10 witness**: the frame theorem applied to the concrete indexed
lookup `select_rows("A", Equal(1))` on table `T`. -/
theorem c10_witness :
    Table.select_rows stT tblT "A" (.Equal (.number 1)) =
        some (stT, tblT, .ok ftT_equal1) ∧
    ((stT, tblT, Except.ok ftT_equal1) :
        IndexStore × Table × Except DBError Table).1 = stT :=
  ⟨by decide,
    (c10_select_rows_frame stT tblT "A" (.Equal (.number 1)) _ (by decide)).1⟩

/-! ## C9: sorting -/

/-- Inserting an element is a permutation of consing it. -/
theorem insert_sorted_perm {α : Type} (le : α → α → Bool) (x : α) :
    ∀ l : List α, (insert_sorted le x l).Perm (x :: l)
  | [] => List.Perm.refl _
  | y :: ys => by
      simp only [insert_sorted]
      split
      · exact List.Perm.refl _
      · exact ((insert_sorted_perm le x ys).cons y).trans (List.Perm.swap x y ys)

/-- The stable sort permutes its input. -/
theorem sort_by_perm {α : Type} (le : α → α → Bool) :
    ∀ l : List α, (sort_by le l).Perm l
  | [] => List.Perm.refl _
  | x :: xs =>
      (insert_sorted_perm le x (sort_by le xs)).trans ((sort_by_perm le xs).cons x)

/-- `compare_to` is antisymmetric: swapping the operands swaps a successful
comparison. -/
theorem compare_to_swap (a b : FieldValue) (o : Ordering)
    (h : a.compare_to b = .ok o) : b.compare_to a = .ok o.swap := by
  cases a <;> cases b <;> simp only [FieldValue.compare_to] at h ⊢ <;> cases h
  case boolean.boolean x y => cases x <;> cases y <;> rfl
  case null.null => rfl
  all_goals rename_i x y
  all_goals
    rcases lt_trichotomy x y with hlt | heq | hgt
    · rw [if_pos hlt, if_neg (lt_asymm hlt), if_neg hlt.ne']
      rfl
    · subst heq
      rw [if_neg (lt_irrefl x), if_pos rfl]
      rfl
    · rw [if_neg (lt_asymm hgt), if_neg hgt.ne', if_pos hgt]
      rfl

/-- Chain preservation for stable insertion: only totality of the
comparator is needed (no transitivity — the engine's comparator is not
transitive across kinds). -/
theorem chain'_insert_sorted {α : Type} (le : α → α → Bool)
    (htot : ∀ a b, le a b = false → le b a = true) (x : α) :
    ∀ l : List α, List.Chain' (fun a b => le a b = true) l →
      List.Chain' (fun a b => le a b = true) (insert_sorted le x l)
  | [], _ => List.chain'_singleton x
  | y :: ys, hl => by
      simp only [insert_sorted]
      split
      · rename_i hxy
        exact List.chain'_cons.mpr ⟨hxy, hl⟩
      · rename_i hxy
        have hyx : le y x = true := htot x y (by
          cases hle : le x y
          · rfl
          · exact absurd hle hxy)
        have hys : List.Chain' (fun a b => le a b = true) ys := hl.tail
        have hins := chain'_insert_sorted le htot x ys hys
        cases ys with
        | nil => exact List.chain'_cons.mpr ⟨hyx, List.chain'_singleton x⟩
        | cons z zs =>
            simp only [insert_sorted] at hins ⊢
            by_cases hxz : le x z = true
            · rw [if_pos hxz] at hins ⊢
              exact List.chain'_cons.mpr ⟨hyx, hins⟩
            · rw [if_neg hxz] at hins ⊢
              exact List.chain'_cons.mpr ⟨(List.chain'_cons.mp hl).1, hins⟩

/-- The stable sort produces a list whose adjacent elements are ordered by
the comparator. -/
theorem chain'_sort_by {α : Type} (le : α → α → Bool)
    (htot : ∀ a b, le a b = false → le b a = true) :
    ∀ l : List α, List.Chain' (fun a b => le a b = true) (sort_by le l)
  | [] => List.chain'_nil
  | x :: xs => chain'_insert_sorted le htot x (sort_by le xs) (chain'_sort_by le htot xs)

/-- Insertion preserves existing sublists. -/
theorem sublist_insert_sorted {α : Type} (le : α → α → Bool) (x : α) :
    ∀ l : List α, l.Sublist (insert_sorted le x l)
  | [] => List.nil_sublist _
  | y :: ys => by
      simp only [insert_sorted]
      split
      · exact List.Sublist.cons x (List.Sublist.refl _)
      · exact List.Sublist.cons₂ y (sublist_insert_sorted le x ys)

/-- Inserting `x` places it before every element it is `le`-below, so the
pair `[x, b]` survives as a sublist whenever `b` was present and
`le x b`. -/
theorem pair_sublist_insert_sorted {α : Type} (le : α → α → Bool) (x b : α)
    (hxb : le x b = true) :
    ∀ l : List α, b ∈ l → [x, b].Sublist (insert_sorted le x l)
  | [], hmem => absurd hmem (List.not_mem_nil b)
  | y :: ys, hmem => by
      simp only [insert_sorted]
      split
      · exact List.Sublist.cons₂ x (List.singleton_sublist.mpr hmem)
      · rename_i hxy
        rcases List.mem_cons.mp hmem with hby | hbys
        · subst hby
          exact absurd hxb hxy
        · exact List.Sublist.cons y (pair_sublist_insert_sorted le x b hxb ys hbys)

/-- Stability of the sort for non-descending pairs: if `a` precedes `b` in
the input and `le a b`, then `a` still precedes `b` in the sorted output.
(In particular pairs the comparator calls equal — including every
incomparable pair, which the engine treats as equal — keep their original
relative order.) -/
theorem pair_sublist_sort_by {α : Type} (le : α → α → Bool) (a b : α)
    (hab : le a b = true) :
    ∀ l : List α, [a, b].Sublist l → [a, b].Sublist (sort_by le l)
  | [], h => absurd h (by intro hc; cases hc)
  | x :: xs, h => by
      cases h with
      | cons _ h' =>
          exact (pair_sublist_sort_by le a b hab xs h').trans
            (sublist_insert_sorted le x (sort_by le xs))
      | cons₂ _ h' =>
          exact pair_sublist_insert_sorted le a b hab (sort_by le xs)
            ((sort_by_perm le xs).mem_iff.mpr (List.singleton_sublist.mp h'))

/-- The sort comparator is total: an element not `le` another is `le`-ed by
it (comparison errors map to `Equal`, which is `le` both ways). -/
theorem row_le_total (col : String) (desc : Bool) (a b : Row)
    (h : row_le col desc a b = false) : row_le col desc b a = true := by
  unfold row_le row_compare at h ⊢
  cases desc
  · rw [if_neg Bool.false_ne_true] at h ⊢
    cases hc : ((rowGet a col).getD .null).compare_to ((rowGet b col).getD .null) with
    | error e => rw [hc] at h; exact Bool.noConfusion h
    | ok o =>
        rw [hc] at h
        have ho : o = .gt := by
          cases o
          · exact Bool.noConfusion h
          · exact Bool.noConfusion h
          · rfl
        subst ho
        rw [compare_to_swap _ _ _ hc]
        rfl
  · rw [if_pos rfl] at h ⊢
    cases hc : ((rowGet b col).getD .null).compare_to ((rowGet a col).getD .null) with
    | error e => rw [hc] at h; exact Bool.noConfusion h
    | ok o =>
        rw [hc] at h
        have ho : o = .gt := by
          cases o
          · exact Bool.noConfusion h
          · exact Bool.noConfusion h
          · rfl
        subst ho
        rw [compare_to_swap _ _ _ hc]
        rfl

/-- Does the sort condition sort descending? (All six conditions reduce to
the same generic comparator, three of them with swapped operands.) -/
def sort_descending (sc : SortCondition) : Bool :=
  match sc with
  | .NumericAscending | .AlphaAscending | .DateAscending => false
  | .NumericDescending | .AlphaDescending | .DateDescending => true

/-- **C9.** `sort_rows` on an unknown column fails with `InvalidColumn`
(leaving the table untouched); on an existing column (of a table whose rows
all carry the column, the invariant the source's `unwrap` relies on) it
returns `Ok ()`, the row multiset is unchanged (so in particular the row
count), every adjacent pair of the result whose values are comparable is
ordered — ascending (`<=`) for the three ascending conditions, descending
for the rest — and every pair the comparator does not order strictly
downward (in particular every incomparable pair, treated as equal) keeps
its original relative order. -/
theorem c9_sort_rows_spec (t : Table) (c : String) (sc : SortCondition) :
    (t.is_valid_column c = false →
      t.sort_rows sc c = (t, .error (.InvalidColumn c))) ∧
    (t.is_valid_column c = true →
      (∀ r ∈ t.rows, (rowGet r c).isSome = true) →
      (t.sort_rows sc c).2 = .ok () ∧
      ((t.sort_rows sc c).1).name = t.name ∧
      ((t.sort_rows sc c).1).columns = t.columns ∧
      ((t.sort_rows sc c).1).primary_keys = t.primary_keys ∧
      ((t.sort_rows sc c).1).rows.Perm t.rows ∧
      List.Chain' (fun a b => ∀ o,
          ((rowGet a c).getD .null).compare_to ((rowGet b c).getD .null) = .ok o →
          (if sort_descending sc then o ≠ .lt else o ≠ .gt))
        ((t.sort_rows sc c).1).rows ∧
      (∀ a b : Row, [a, b].Sublist t.rows →
        row_le c (sort_descending sc) a b = true →
        [a, b].Sublist ((t.sort_rows sc c).1).rows)) := by
  constructor
  · intro hv
    simp [Table.sort_rows, hv]
  · intro hv _hwf
    have heq : t.sort_rows sc c =
        ({ t with rows := sort_by (row_le c (sort_descending sc)) t.rows }, .ok ()) := by
      cases sc <;> simp [Table.sort_rows, hv, sort_descending]
    rw [heq]
    refine ⟨rfl, rfl, rfl, rfl, sort_by_perm _ _, ?_, ?_⟩
    · have hch := chain'_sort_by (row_le c (sort_descending sc))
        (row_le_total c (sort_descending sc)) t.rows
      refine hch.imp ?_
      intro a b hab o ho
      unfold row_le row_compare at hab
      cases hdesc : sort_descending sc
      · rw [hdesc] at hab
        rw [if_neg Bool.false_ne_true] at hab
        rw [ho] at hab
        rw [if_neg Bool.false_ne_true]
        intro hogt
        subst hogt
        exact Bool.noConfusion hab
      · rw [hdesc] at hab
        rw [if_pos rfl] at hab
        rw [compare_to_swap _ _ _ ho] at hab
        rw [if_pos rfl]
        intro holt
        subst holt
        exact Bool.noConfusion hab
    · intro a b hsub hab
      exact pair_sublist_sort_by (row_le c (sort_descending sc)) a b hab t.rows hsub

/-- **C9 witness**: the sort specification applied to table `T` (valid
column `A`, well-formed rows), ascending numeric sort. -/
theorem c9_witness :
    tblT.is_valid_column "A" = true ∧
    (∀ r ∈ tblT.rows, (rowGet r "A").isSome = true) ∧
    (tblT.sort_rows .NumericAscending "A").2 = .ok () ∧
    ((tblT.sort_rows .NumericAscending "A").1).rows.Perm tblT.rows :=
  ⟨by decide, by decide,
    ((c9_sort_rows_spec tblT "A" .NumericAscending).2 (by decide) (by decide)).1,
    ((c9_sort_rows_spec tblT "A" .NumericAscending).2 (by decide) (by decide)).2.2.2.2.1⟩

/-! ## C6: duplicate primary keys are rejected atomically -/

/-- `fvCmp` is reflexive. -/
theorem fvCmp_refl (v : FieldValue) : fvCmp v v = .eq := by
  cases v with
  | string s => simp [fvCmp, FieldValue.compare_to]
  | number n => simp [fvCmp, FieldValue.compare_to]
  | date d => simp [fvCmp, FieldValue.compare_to]
  | url u => simp [fvCmp, FieldValue.compare_to]
  | boolean b => cases b <;> rfl
  | null => rfl

/-- After a `BTreeMap::insert` the key is present with the stored value. -/
theorem idx_get_insert_self (idx : Index) (k : FieldValue) (v : List Nat) :
    idx_get (idx_insert idx k v) k = some v := by
  induction idx with
  | nil => simp [idx_insert, idx_get, fvCmp_refl]
  | cons e rest ih =>
      obtain ⟨k', ps⟩ := e
      simp only [idx_insert]
      cases hc : fvCmp k k' with
      | lt => simp [idx_get, fvCmp_refl]
      | eq => simp [idx_get, fvCmp_refl]
      | gt => simp [idx_get, hc, ih]

/-- After a `BTreeMap::insert` the map contains the key. -/
theorem idx_contains_insert_self (idx : Index) (k : FieldValue) (v : List Nat) :
    idx_contains (idx_insert idx k v) k = true := by
  simp [idx_contains, idx_get_insert_self]

/-- Loading an index right after saving it returns the saved contents. -/
theorem load_save_same (st : IndexStore) (tn cn : String) (idx : Index) :
    load_index (save_index st tn cn idx) tn cn = some idx := by
  induction st with
  | nil => simp [save_index, load_index]
  | cons e rest ih =>
      obtain ⟨f, old⟩ := e
      simp only [save_index]
      by_cases hf : f = index_file_name tn cn
      · rw [if_pos hf]
        simp [load_index, hf]
      · rw [if_neg hf]
        simp [load_index, hf]
        exact ih

/-- Saving under a different file name leaves other indexes untouched. -/
theorem load_save_other (st : IndexStore) (tn cn n : String) (idx : Index)
    (hne : index_file_name tn cn ≠ index_file_name tn n) :
    load_index (save_index st tn cn idx) tn n = load_index st tn n := by
  induction st with
  | nil => simp [save_index, load_index, hne]
  | cons e rest ih =>
      obtain ⟨f, old⟩ := e
      simp only [save_index]
      by_cases hf : f = index_file_name tn cn
      · rw [if_pos hf]
        subst hf
        simp [load_index, hne]
      · rw [if_neg hf]
        simp only [load_index]
        by_cases hn : f = index_file_name tn n
        · rw [if_pos hn, if_pos hn]
        · rw [if_neg hn, if_neg hn]
          exact ih

/-- The index file name determines the column name (for a fixed table). -/
theorem index_file_name_inj (tn a b : String)
    (h : index_file_name tn a = index_file_name tn b) : a = b := by
  unfold index_file_name at h
  have h2 := congrArg String.data h
  simp only [String.data_append] at h2
  have h3 := List.append_cancel_right h2
  have h4 := List.append_cancel_left h3
  exact String.ext h4

/-- A key found in a row is among the row's keys. -/
theorem rowGet_contains (r : Row) (k : String) (v : FieldValue)
    (h : rowGet r k = some v) : (rowKeys r).contains k = true := by
  induction r with
  | nil => simp [rowGet] at h
  | cons e rest ih =>
      obtain ⟨k', v'⟩ := e
      simp only [rowGet] at h
      by_cases hk : k' = k
      · subst hk
        simp [rowKeys, List.contains_cons]
      · rw [if_neg hk] at h
        have hrest := ih h
        simp only [rowKeys, List.map_cons, List.contains_cons]
        simp only [rowKeys] at hrest
        rw [hrest]
        simp

/-- A successful run of the insert-time index-maintenance loop preserves
the fact that the index stored for a column name contains the row's value
for that name (later primary keys either touch other files or re-insert
the very same value). -/
theorem update_indexes_preserves (tname : String) (r0 : Row) (i : Nat) :
    ∀ (pks : List Column) (st st1 : IndexStore),
      update_indexes_insertion st tname pks r0 i = some (st1, .ok ()) →
      ∀ (n : String) (v : FieldValue), rowGet r0 n = some v →
        (∃ idx, load_index st tname n = some idx ∧ idx_contains idx v = true) →
        ∃ idx, load_index st1 tname n = some idx ∧ idx_contains idx v = true
  | [], st, st1, hupd, n, v, hv, h0 => by
      simp only [update_indexes_insertion, Option.some_inj] at hupd
      cases hupd
      exact h0
  | pk :: rest, st, st1, hupd, n, v, hv, h0 => by
      simp only [update_indexes_insertion] at hupd
      cases hv' : rowGet r0 pk.name with
      | none => rw [hv'] at hupd; cases hupd
      | some w =>
          rw [hv'] at hupd
          cases hload : load_index st tname pk.name with
          | none =>
              rw [hload] at hupd
              simp only [Option.some_inj] at hupd
              cases hupd
          | some idx =>
              rw [hload] at hupd
              refine update_indexes_preserves tname r0 i rest _ st1 hupd n v hv ?_
              by_cases hn : pk.name = n
              · subst hn
                refine ⟨idx_insert idx w [i], ?_, ?_⟩
                · exact load_save_same st tname pk.name _
                · have : w = v := by rw [hv'] at hv; exact Option.some_inj.mp hv
                  subst this
                  exact idx_contains_insert_self idx w [i]
              · obtain ⟨idx0, hl0, hc0⟩ := h0
                refine ⟨idx0, ?_, hc0⟩
                rw [load_save_other st tname pk.name n _ ?_]
                · exact hl0
                · intro hcontra
                  exact hn (index_file_name_inj tname pk.name n hcontra)

/-- After a successful run of the insert-time index-maintenance loop,
every primary key's index is loadable and contains the inserted row's
value for that key. -/
theorem update_indexes_contains (tname : String) (r0 : Row) (i : Nat) :
    ∀ (pks : List Column) (st st1 : IndexStore),
      update_indexes_insertion st tname pks r0 i = some (st1, .ok ()) →
      ∀ pk ∈ pks, ∃ v, rowGet r0 pk.name = some v ∧
        ∃ idx, load_index st1 tname pk.name = some idx ∧ idx_contains idx v = true
  | [], st, st1, hupd, pk, hmem => absurd hmem (List.not_mem_nil pk)
  | pk0 :: rest, st, st1, hupd, pk, hmem => by
      have hupd0 := hupd
      simp only [update_indexes_insertion] at hupd0
      cases hv' : rowGet r0 pk0.name with
      | none => rw [hv'] at hupd0; cases hupd0
      | some w =>
          rw [hv'] at hupd0
          cases hload : load_index st tname pk0.name with
          | none =>
              rw [hload] at hupd0
              simp only [Option.some_inj] at hupd0
              cases hupd0
          | some idx =>
              rw [hload] at hupd0
              rcases List.mem_cons.mp hmem with hpk | hpk
              · subst hpk
                refine ⟨w, hv', ?_⟩
                refine update_indexes_preserves tname r0 i rest _ st1 hupd0
                  pk.name w hv' ?_
                exact ⟨idx_insert idx w [i], load_save_same st tname pk.name _,
                  idx_contains_insert_self idx w [i]⟩
              · exact update_indexes_contains tname r0 i rest _ st1 hupd0 pk hpk

/-- **C6.** Duplicate primary keys are rejected atomically: after a
successful `insert_row(r0)`, inserting any row `r` whose value equals
`r0`'s on every primary-key column fails with `DuplicatePrimaryKey` on the
first primary key, and returns the table and the index directory exactly
as they were — in particular the row count is unchanged. -/
theorem c6_insert_duplicate_primary_key_rejected
    (st st1 : IndexStore) (t t1 : Table) (r0 r : Row) (pk0 : Column) (pks : List Column)
    (hpks : t.primary_keys = pk0 :: pks)
    (hins : Table.insert_row st t r0 = some (st1, t1, .ok ()))
    (heq : ∀ c ∈ t.primary_keys, rowGet r c.name = rowGet r0 c.name) :
    Table.insert_row st1 t1 r = some (st1, t1, .error (.DuplicatePrimaryKey pk0.name)) := by
  unfold Table.insert_row at hins
  split at hins
  · simp at hins
  · split at hins
    · simp at hins
    · simp at hins
    · split at hins
      · simp at hins
      · split at hins
        · simp at hins
        · simp at hins
        · rename_i hdup hcols st' u hupd
          cases u
          simp only [Option.some_inj, Prod.mk.injEq] at hins
          obtain ⟨hst, ht1, -⟩ := hins
          subst hst
          subst ht1
          have hcontains := update_indexes_contains t.name r0
            ((t.rows ++ [r0]).length - 1) t.primary_keys st st' hupd
          have hmissr :
              Table.missing_primary_keys { t with rows := t.rows ++ [r0] } (rowKeys r)
                = [] := by
            unfold Table.missing_primary_keys
            have hfilter :
                (t.primary_keys.filter (fun pk => !(rowKeys r).contains pk.name)) = [] := by
              refine List.filter_eq_nil_iff.mpr ?_
              intro pk hmem
              obtain ⟨v, hv0, -⟩ := hcontains pk hmem
              have hr : rowGet r pk.name = some v := by rw [heq pk hmem, hv0]
              rw [rowGet_contains r pk.name v hr]
              simp
            show ((Table.primary_keys t).filter _).map _ = []
            rw [hfilter, List.map_nil]
          obtain ⟨v0, hv00, idx, hload, hcont⟩ :=
            hcontains pk0 (by rw [hpks]; exact List.mem_cons_self pk0 pks)
          have hr0 : rowGet r pk0.name = some v0 := by
            rw [heq pk0 (by rw [hpks]; exact List.mem_cons_self pk0 pks), hv00]
          have hdupr : pk_dup_check st' t.name (pk0 :: pks) r =
              some (.error (.DuplicatePrimaryKey pk0.name)) := by
            simp only [pk_dup_check, hr0, hload, hcont, if_true]
          unfold Table.insert_row
          rw [hmissr]
          simp only [List.length_nil, gt_iff_lt, lt_irrefl, if_false]
          rw [show ({ t with rows := t.rows ++ [r0] } : Table).primary_keys
            = pk0 :: pks from hpks]
          rw [show ({ t with rows := t.rows ++ [r0] } : Table).name = t.name from rfl]
          rw [hdupr]

/-- **C6 witness**: the duplicate-rejection theorem applied to table `T`
right after inserting `A = 1`, re-inserting the same row. -/
theorem c6_witness :
    Table.insert_row [("idx_T_A.bin", [(.number 1, [0])])]
      ⟨"T", [⟨"A", .number, true⟩], [⟨"A", .number, true⟩], [[("A", .number 1)]]⟩
      [("A", .number 1)] =
    some ([("idx_T_A.bin", [(.number 1, [0])])],
      ⟨"T", [⟨"A", .number, true⟩], [⟨"A", .number, true⟩], [[("A", .number 1)]]⟩,
      .error (.DuplicatePrimaryKey "A")) :=
  c6_insert_duplicate_primary_key_rejected
    [("idx_T_A.bin", [])] [("idx_T_A.bin", [(.number 1, [0])])]
    ⟨"T", [⟨"A", .number, true⟩], [⟨"A", .number, true⟩], []⟩
    ⟨"T", [⟨"A", .number, true⟩], [⟨"A", .number, true⟩], [[("A", .number 1)]]⟩
    [("A", .number 1)] [("A", .number 1)] ⟨"A", .number, true⟩ []
    (by decide) (by decide) (fun c _ => rfl)
